import Mathlib

/-!
Shallow embedding of gallery_dl/archive.py ("Download Archives").

The module implements a deduplication ledger with four backend classes
(DownloadArchive, DownloadArchiveMemory, DownloadArchivePostgresql,
DownloadArchivePostgresqlMemory), a fallback orchestrator (connect), a
table-name sanitizer (sanitize) and a reconciliation procedure
(sync_from_sqlite).

Modelling conventions:
- a ledger key is a String; the physical store (one SQL table with column
  entry TEXT PRIMARY KEY) is a duplicate-free List String;
- the SQL statements INSERT OR IGNORE (sqlite) and INSERT ... ON CONFLICT
  DO NOTHING (postgres) are both modelled by insertIgnore (insert if
  absent); SELECT 1 ... WHERE entry=? LIMIT 1 followed by fetchone() is
  modelled by a membership test (storeCheck);
- an item metadata mapping (Python dict, called kwdict in the source) is
  an association list with first-match lookup; dict assignment prepends;
- the injected key formatter (keygen) is an arbitrary function
  Kwdict -> String, stored in each ledger structure;
- exceptions raised by a database driver are modelled by Boolean failure
  oracles passed to the operations; a statement execution is execStmt,
  which returns Except.error when its oracle says the driver raises;
  Python try/except blocks become match on that Except;
- a caught-and-swallowed exception leaves the model state unchanged
  (rollback of an uncommitted transaction restores the prior store);
- file-system paths are lists of characters; os.path.dirname is modelled
  as the portion of the path before its final slash (empty for a bare
  filename), and os.makedirs applied to the empty string raises
  FileNotFoundError, as in CPython.
-/

/-- An item metadata mapping (kwdict in the source): association list with
first-match lookup modelling a Python dict. -/
structure Kwdict where
  entries : List (String × String)

/-- kwdict.get(k): first value bound to k, if any. -/
def Kwdict.get (d : Kwdict) (k : String) : Option String :=
  match d.entries.find? (fun p => p.1 == k) with
  | some p => some p.2
  | none => none

/-- kwdict[k] = v: dict assignment, modelled by prepending (lookup is
first-match, so the new binding shadows any old one). -/
def Kwdict.set (d : Kwdict) (k v : String) : Kwdict :=
  ⟨(k, v) :: d.entries⟩

/-- Python `cached or fresh` where cached is str-or-None: None and the
empty string are falsy, any other string is returned as is. -/
def orElseKey (cached : Option String) (fresh : String) : String :=
  match cached with
  | some s => if s = "" then fresh else s
  | none => fresh

/-- Idempotent insert: INSERT OR IGNORE (sqlite, line 98) and
INSERT ... ON CONFLICT DO NOTHING (postgres, line 186). -/
def insertIgnore (store : List String) (k : String) : List String :=
  if k ∈ store then store else store ++ [k]

/-- SELECT 1 FROM t WHERE entry=? LIMIT 1; fetchone() truthiness. -/
def storeCheck (store : List String) (k : String) : Bool :=
  decide (k ∈ store)

/-- One statement execution against a database driver: the Boolean oracle
says whether the driver raises. -/
def execStmt {α : Type} (fail : Bool) (result : α) : Except String α :=
  if fail then Except.error "db error" else Except.ok result

/-- sanitize (archive.py line 66): replace every double quote of the
user-supplied table name by an underscore and wrap the result in double
quotes. Strings are modelled as lists of characters so that
str.replace of a single-character pattern is a map. -/
def sanitize (name : List Char) : List Char :=
  '"' :: (name.map (fun c => if c = '"' then '_' else c)) ++ ['"']

/-- str.startswith for character lists. -/
def startsWith : List Char → List Char → Bool
  | _, [] => true
  | [], _ :: _ => false
  | c :: cs, p :: ps => c == p && startsWith cs ps

/-- path.startswith(("postgres://", "postgresql://")) (line 23). -/
def isPostgresPath (path : List Char) : Bool :=
  startsWith path ("postgres://".toList) || startsWith path ("postgresql://".toList)

/-- The four ledger constructors connect can invoke. -/
inductive LedgerKind
  | pg
  | pgMemory
  | sqlite
  | sqliteMemory
  deriving DecidableEq

/-- The well-known local fallback location (lines 34 and 50). -/
def fallbackPath : List Char := "archive-fallback.sqlite3".toList

/-- connect (lines 19-63), reduced to its class/path selection logic.
pgConstructOk is the oracle for whether constructing the postgres ledger
(psycopg connect plus schema creation, line 31) succeeds. The result is
the constructor finally invoked at line 46 or line 63 together with the
path it receives. Faithful detail: in the except branch (lines 47-50)
only path is reassigned; cls keeps the value set at lines 26-29. The
opportunistic fallback sync (lines 33-44) swallows all its exceptions and
does not affect which object is returned, so it is omitted here; the
external expand_path and template expansion of path and table are
likewise out of scope. -/
def connect (path : List Char) (mode : Option String) (pgConstructOk : Bool) :
    LedgerKind × List Char :=
  if isPostgresPath path then
    let cls := if mode == some "memory" then LedgerKind.pgMemory else LedgerKind.pg
    if pgConstructOk then
      (cls, path)
    else
      (cls, fallbackPath)
  else
    let cls := if mode == some "memory" then LedgerKind.sqliteMemory else LedgerKind.sqlite
    (cls, path)

/-- os.path.dirname, modelled as the portion of the path before the final
slash; empty for a bare filename. -/
def dirname (path : List Char) : List Char :=
  (((path.reverse.dropWhile (fun c => c != '/')).drop 1).reverse)

/-- os.makedirs: raises FileNotFoundError on the empty string (CPython
behaviour); for a non-empty directory the oracle mkOk says whether
creation succeeds. -/
def makedirs (mkOk : Bool) (dir : List Char) : Except String Unit :=
  match dir with
  | [] => Except.error "FileNotFoundError"
  | _ :: _ => if mkOk then Except.ok () else Except.error "OSError"

/-- DownloadArchive.__init__ open logic (lines 77-83): try sqlite3.connect;
on OperationalError run os.makedirs(os.path.dirname(path)) and retry the
open once. Oracles: firstOpenOk, retryOpenOk for the two connect calls,
mkOk for makedirs on a non-empty directory. -/
def sqliteOpenWithRetry (firstOpenOk retryOpenOk mkOk : Bool) (path : List Char) :
    Except String Unit :=
  if firstOpenOk then Except.ok ()
  else
    match makedirs mkOk (dirname path) with
    | Except.error e => Except.error e
    | Except.ok _ => if retryOpenOk then Except.ok () else Except.error "OperationalError"

/-- DownloadArchive (lines 70-126): embedded sqlite ledger. store is the
contents of its table; cacheKey is self._cache_key; keygen the injected
key formatter. -/
structure DownloadArchive where
  store : List String
  cacheKey : String
  keygen : Kwdict → String

/-- DownloadArchive.add (lines 114-117): key = kwdict.get(cache) or
keygen(kwdict); execute the idempotent insert. No kwdict mutation. -/
def DownloadArchive.add (a : DownloadArchive) (d : Kwdict) : DownloadArchive :=
  { a with store := insertIgnore a.store (orElseKey (d.get a.cacheKey) (a.keygen d)) }

/-- DownloadArchive.check (lines 119-123): key = kwdict[cache] =
keygen(kwdict) (always recomputed, then stored back), then the SELECT.
Returns the found flag and the mutated kwdict. -/
def DownloadArchive.check (a : DownloadArchive) (d : Kwdict) : Bool × Kwdict :=
  let key := a.keygen d
  (storeCheck a.store key, d.set a.cacheKey key)

/-- DownloadArchive.finalize (lines 125-126): pass. -/
def DownloadArchive.finalize (a : DownloadArchive) : DownloadArchive :=
  a

/-- DownloadArchiveMemory (lines 129-164): buffered sqlite ledger; keys is
the in-process pending set (a duplicate-free list). -/
structure DownloadArchiveMemory where
  store : List String
  keys : List String
  cacheKey : String
  keygen : Kwdict → String

/-- Result of a buffered check: found flag, mutated kwdict, and whether a
physical SELECT was issued. -/
structure MemCheck where
  found : Bool
  kw : Kwdict
  physicalQuery : Bool

/-- DownloadArchiveMemory.add (lines 136-139): insert the key into the
pending set only; no physical write, no kwdict mutation. -/
def DownloadArchiveMemory.add (m : DownloadArchiveMemory) (d : Kwdict) : DownloadArchiveMemory :=
  { m with keys := insertIgnore m.keys (orElseKey (d.get m.cacheKey) (m.keygen d)) }

/-- DownloadArchiveMemory.check (lines 141-146): recompute and store back
the key; if it is in the pending set return True at once (no physical
query); otherwise issue the SELECT. -/
def DownloadArchiveMemory.check (m : DownloadArchiveMemory) (d : Kwdict) : MemCheck :=
  let key := m.keygen d
  let kw := d.set m.cacheKey key
  if key ∈ m.keys then ⟨true, kw, false⟩
  else ⟨storeCheck m.store key, kw, true⟩

/-- DownloadArchiveMemory.finalize (lines 148-164): if the pending set is
empty return; otherwise insert every pending key with the idempotent
insert. The row-by-row path (fewer than 100 keys) and the executemany
path insert the same keys, so both are one fold. Faithful detail: the
source never clears self.keys. -/
def DownloadArchiveMemory.finalize (m : DownloadArchiveMemory) : DownloadArchiveMemory :=
  match m.keys with
  | [] => m
  | _ :: _ => { m with store := m.keys.foldl insertIgnore m.store }

/-- DownloadArchivePostgresql (lines 167-270): networked ledger. -/
structure DownloadArchivePostgresql where
  store : List String
  cacheKey : String
  keygen : Kwdict → String

/-- Result of a postgres check: found flag and mutated kwdict. -/
structure PgCheck where
  found : Bool
  kw : Kwdict

/-- DownloadArchivePostgresql.add (lines 201-209): execute the idempotent
insert and commit; on any exception log, roll back (state unchanged) and
return normally. The total return type records that add never raises. -/
def DownloadArchivePostgresql.add (a : DownloadArchivePostgresql) (fail : Bool)
    (d : Kwdict) : DownloadArchivePostgresql :=
  let key := orElseKey (d.get a.cacheKey) (a.keygen d)
  match execStmt fail (insertIgnore a.store key) with
  | Except.ok s => { a with store := s }
  | Except.error _ => a

/-- DownloadArchivePostgresql.check (lines 211-220): recompute and store
back the key; execute the SELECT; on any exception log, roll back and
return False. -/
def DownloadArchivePostgresql.check (a : DownloadArchivePostgresql) (fail : Bool)
    (d : Kwdict) : PgCheck :=
  let key := a.keygen d
  let kw := d.set a.cacheKey key
  match execStmt fail (storeCheck a.store key) with
  | Except.ok r => ⟨r, kw⟩
  | Except.error _ => ⟨false, kw⟩

/-- DownloadArchivePostgresql.finalize (lines 222-223): pass. -/
def DownloadArchivePostgresql.finalize (a : DownloadArchivePostgresql) :
    DownloadArchivePostgresql :=
  a

/-- DownloadArchivePostgresql.sync_from_sqlite (lines 225-270). rows is the
result of SELECT entry FROM the fallback sqlite table; insertFail is the
oracle for the bulk executemany plus commit (lines 246-247); deleteFail
for closing and removing the fallback file (lines 253-254). The result
pairs the post-state with either the raised exception (bulk insert
failure: rolled back and re-raised, lines 261-265) or the pair (synced
count, whether the fallback file was removed). A delete failure is caught
and logged only (lines 256-258): the count is still returned (line 260).
An empty fallback table returns 0 at once (lines 241-243). -/
def DownloadArchivePostgresql.sync_from_sqlite (a : DownloadArchivePostgresql)
    (rows : List String) (deleteSqlite insertFail deleteFail : Bool) :
    DownloadArchivePostgresql × Except String (Nat × Bool) :=
  match rows with
  | [] => (a, Except.ok (0, false))
  | _ :: _ =>
    match execStmt insertFail (rows.foldl insertIgnore a.store) with
    | Except.error e => (a, Except.error e)
    | Except.ok s =>
      let synced := rows.length
      let removed := deleteSqlite && !deleteFail
      ({ a with store := s }, Except.ok (synced, removed))

/-- DownloadArchivePostgresqlMemory (lines 273-309): buffered networked
ledger. -/
structure DownloadArchivePostgresqlMemory where
  store : List String
  keys : List String
  cacheKey : String
  keygen : Kwdict → String

/-- DownloadArchivePostgresqlMemory.add (lines 280-283): pending set
insert only. -/
def DownloadArchivePostgresqlMemory.add (m : DownloadArchivePostgresqlMemory)
    (d : Kwdict) : DownloadArchivePostgresqlMemory :=
  { m with keys := insertIgnore m.keys (orElseKey (d.get m.cacheKey) (m.keygen d)) }

/-- DownloadArchivePostgresqlMemory.check (lines 285-296): pending set hit
returns True with no physical query; otherwise the SELECT, degrading to
False on an exception. -/
def DownloadArchivePostgresqlMemory.check (m : DownloadArchivePostgresqlMemory)
    (fail : Bool) (d : Kwdict) : MemCheck :=
  let key := m.keygen d
  let kw := d.set m.cacheKey key
  if key ∈ m.keys then ⟨true, kw, false⟩
  else
    match execStmt fail (storeCheck m.store key) with
    | Except.ok r => ⟨r, kw, true⟩
    | Except.error _ => ⟨false, kw, true⟩

/-- DownloadArchivePostgresqlMemory.finalize (lines 298-309): if the
pending set is empty return; otherwise executemany the idempotent insert
and commit; on an exception roll back (state unchanged) and swallow.
Faithful detail: self.keys is never cleared. -/
def DownloadArchivePostgresqlMemory.finalize (m : DownloadArchivePostgresqlMemory)
    (fail : Bool) : DownloadArchivePostgresqlMemory :=
  match m.keys with
  | [] => m
  | _ :: _ =>
    match execStmt fail (m.keys.foldl insertIgnore m.store) with
    | Except.ok s => { m with store := s }
    | Except.error _ => m

/-! Helper lemmas about the idempotent insert. -/

theorem mem_insertIgnore_self (l : List String) (k : String) : k ∈ insertIgnore l k := by
  unfold insertIgnore
  split
  · assumption
  · exact List.mem_append.mpr (Or.inr (List.mem_singleton.mpr rfl))

theorem mem_insertIgnore_of_mem {l : List String} {k : String} (j : String) (h : k ∈ l) :
    k ∈ insertIgnore l j := by
  unfold insertIgnore
  split
  · exact h
  · exact List.mem_append.mpr (Or.inl h)

theorem insertIgnore_of_mem {l : List String} {k : String} (h : k ∈ l) :
    insertIgnore l k = l := by
  simp [insertIgnore, h]

theorem nodup_insertIgnore (k : String) {l : List String} (h : l.Nodup) :
    (insertIgnore l k).Nodup := by
  unfold insertIgnore
  split
  · exact h
  · rename_i hk
    refine List.Nodup.append h (List.nodup_singleton k) ?_
    intro a ha hb
    rw [List.mem_singleton] at hb
    exact hk (hb ▸ ha)

theorem count_eq_one_of_nodup_mem {l : List String} {k : String}
    (hd : l.Nodup) (h : k ∈ l) : l.count k = 1 := by
  induction l with
  | nil => cases h
  | cons a as ih =>
    rw [List.nodup_cons] at hd
    rcases List.mem_cons.mp h with rfl | hmem
    · rw [List.count_cons_self, List.count_eq_zero_of_not_mem hd.1]
    · have hne : k ≠ a := fun e => hd.1 (e ▸ hmem)
      rw [List.count_cons_of_ne hne, ih hd.2 hmem]

theorem count_insertIgnore_self {l : List String} (k : String) (h : l.Nodup) :
    (insertIgnore l k).count k = 1 :=
  count_eq_one_of_nodup_mem (nodup_insertIgnore k h) (mem_insertIgnore_self l k)

theorem mem_foldl_insertIgnore_init {l : List String} {k : String} (keys : List String)
    (h : k ∈ l) : k ∈ keys.foldl insertIgnore l := by
  induction keys generalizing l with
  | nil => exact h
  | cons a as ih =>
    rw [List.foldl_cons]
    exact ih (mem_insertIgnore_of_mem a h)

theorem mem_foldl_insertIgnore_keys {keys : List String} {k : String} (l : List String)
    (h : k ∈ keys) : k ∈ keys.foldl insertIgnore l := by
  induction keys generalizing l with
  | nil => cases h
  | cons a as ih =>
    rw [List.foldl_cons]
    rcases List.mem_cons.mp h with rfl | hmem
    · exact mem_foldl_insertIgnore_init as (mem_insertIgnore_self l k)
    · exact ih _ hmem

theorem kwdict_get_set (d : Kwdict) (k v : String) : (d.set k v).get k = some v := by
  unfold Kwdict.get Kwdict.set
  simp

theorem memFinalize_spec (m : DownloadArchiveMemory) :
    m.finalize.store = m.keys.foldl insertIgnore m.store ∧ m.finalize.keys = m.keys := by
  obtain ⟨s, ks, ck, kg⟩ := m
  cases ks with
  | nil => exact ⟨rfl, rfl⟩
  | cons a as => exact ⟨rfl, rfl⟩

theorem pgMemFinalize_spec (pm : DownloadArchivePostgresqlMemory) :
    (pm.finalize false).store = pm.keys.foldl insertIgnore pm.store ∧
    (pm.finalize false).keys = pm.keys := by
  obtain ⟨s, ks, ck, kg⟩ := pm
  cases ks with
  | nil => exact ⟨rfl, rfl⟩
  | cons a as => exact ⟨rfl, rfl⟩

/-! Claim theorems. -/

/-- Claim C1 (evaluation of the defect): for a networked-store location, when
construction of the postgres ledger fails, connect reassigns only path to the
well-known fallback location; cls still holds the postgres constructor set at
lines 26-29, so the final construction at line 63 invokes the postgres class
on the sqlite fallback path. No embedded (sqlite) ledger is constructed,
contrary to the claim. -/
theorem connect_pg_failure_keeps_pg_class :
    connect ("postgres://user@host/db".toList) none false
      = (LedgerKind.pg, fallbackPath) ∧
    connect ("postgres://user@host/db".toList) (some "memory") false
      = (LedgerKind.pgMemory, fallbackPath) ∧
    LedgerKind.pg ≠ LedgerKind.sqlite ∧ LedgerKind.pgMemory ≠ LedgerKind.sqliteMemory := by
  refine ⟨rfl, rfl, by decide, by decide⟩

/-- Claim C2 counterexample: a fallback store holding keys a, b, c replayed
into a networked store already holding b inserts a and c, leaves b untouched
without error, but returns count 3 (the number of rows read from the fallback
store), not 2 as the claim states. -/
theorem sync_from_sqlite_count_cex :
    (DownloadArchivePostgresql.sync_from_sqlite
        ⟨["b"], "_archive_key", fun _ => ""⟩ ["a", "b", "c"] false false false).2
      = Except.ok (3, false) ∧
    (DownloadArchivePostgresql.sync_from_sqlite
        ⟨["b"], "_archive_key", fun _ => ""⟩ ["a", "b", "c"] false false false).1.store
      = ["b", "a", "c"] ∧
    (3 : Nat) ≠ 2 := by
  refine ⟨rfl, rfl, by decide⟩

/-- Claim C2 amended: sync_from_sqlite returns the count of keys read from the
fallback store (len(rows)), counting keys the networked store already held;
every key already in the networked store stays present (no error on a
conflicting key) and every key read from the fallback store is present
afterwards. -/
theorem sync_from_sqlite_returns_rows_read (a : DownloadArchivePostgresql)
    (r : String) (rs : List String) :
    a.sync_from_sqlite (r :: rs) false false false
      = ({ a with store := (r :: rs).foldl insertIgnore a.store },
         Except.ok ((r :: rs).length, false)) ∧
    (∀ k, k ∈ a.store → k ∈ ((r :: rs).foldl insertIgnore a.store)) ∧
    (∀ k, k ∈ (r :: rs) → k ∈ ((r :: rs).foldl insertIgnore a.store)) := by
  refine ⟨rfl, ?_, ?_⟩
  · intro k hk
    exact mem_foldl_insertIgnore_init _ hk
  · intro k hk
    exact mem_foldl_insertIgnore_keys _ hk

/-- Claim C3 counterexample: an item whose metadata already carries the key
"cached" under the reserved field, against a store that contains "cached":
check ignores the cached key, recomputes "fresh" with the formatter, stores
"fresh" back, and reports not-found — although the cached key is present in
the store (third conjunct), so a check that used the cached key would have
returned found. -/
theorem check_ignores_cached_key_cex :
    (DownloadArchive.check ⟨["cached"], "_archive_key", fun _ => "fresh"⟩
        ⟨[("_archive_key", "cached")]⟩).1 = false ∧
    (DownloadArchive.check ⟨["cached"], "_archive_key", fun _ => "fresh"⟩
        ⟨[("_archive_key", "cached")]⟩).2.get "_archive_key" = some "fresh" ∧
    storeCheck ["cached"] "cached" = true := by
  refine ⟨rfl, rfl, rfl⟩

/-- Claim C3 amended: check always recomputes the key with the KeyFormatter,
overwrites the reserved cache field with the recomputed key, and queries the
store for the recomputed key; only add reuses a cached (non-empty) key. -/
theorem check_recomputes_key (a : DownloadArchive) (d : Kwdict) :
    (a.check d).1 = storeCheck a.store (a.keygen d) ∧
    (a.check d).2.get a.cacheKey = some (a.keygen d) ∧
    (a.add d).store = insertIgnore a.store (orElseKey (d.get a.cacheKey) (a.keygen d)) := by
  refine ⟨rfl, kwdict_get_set d a.cacheKey (a.keygen d), rfl⟩

/-- Claim C4 counterexample: a buffered ledger with the non-empty pending set
containing the single key "k": finalize flushes it but the pending set is not
discarded — it still contains "k" afterwards. -/
theorem memory_finalize_keeps_pending_cex :
    (DownloadArchiveMemory.finalize ⟨[], ["k"], "_archive_key", fun _ => "k"⟩).keys
      = ["k"] ∧
    (["k"] : List String) ≠ [] := by
  refine ⟨rfl, by decide⟩

/-- Claim C4 amended: for both buffered variants, finalize flushes every
pending key to the physical store with the idempotent insert, but the
in-memory pending set is left unchanged — the source never clears self.keys,
so after finalize the pending buffer equals what it was before. -/
theorem finalize_flushes_and_keeps_pending (m : DownloadArchiveMemory)
    (pm : DownloadArchivePostgresqlMemory) :
    m.finalize.store = m.keys.foldl insertIgnore m.store ∧
    m.finalize.keys = m.keys ∧
    (∀ k, k ∈ m.keys → k ∈ m.finalize.store) ∧
    (pm.finalize false).store = pm.keys.foldl insertIgnore pm.store ∧
    (pm.finalize false).keys = pm.keys ∧
    (∀ k, k ∈ pm.keys → k ∈ (pm.finalize false).store) := by
  refine ⟨(memFinalize_spec m).1, (memFinalize_spec m).2, ?_,
         (pgMemFinalize_spec pm).1, (pgMemFinalize_spec pm).2, ?_⟩
  · intro k hk
    rw [(memFinalize_spec m).1]
    exact mem_foldl_insertIgnore_keys _ hk
  · intro k hk
    rw [(pgMemFinalize_spec pm).1]
    exact mem_foldl_insertIgnore_keys _ hk

/-- Claim C5: for the networked backend, a failure during add or check is
caught locally — add rolls back and returns normally with the store unchanged
(its total return type records that it never raises), and check rolls back
and reports not-found — so the run continues. -/
theorem pg_operation_failure_degrades (a : DownloadArchivePostgresql) (d : Kwdict) :
    a.add true d = a ∧ (a.check true d).found = false := by
  exact ⟨rfl, rfl⟩

/-- Claim C6: a failure of the bulk replay is rolled back (post-state equals
the pre-state) and re-raised to the caller; a failure to delete the consumed
fallback file after a successful replay is swallowed — the call still returns
the synced count, only reporting that the file was not removed. -/
theorem sync_failure_and_cleanup_policy (a : DownloadArchivePostgresql)
    (r : String) (rs : List String) (ds df : Bool) :
    a.sync_from_sqlite (r :: rs) ds true df = (a, Except.error "db error") ∧
    a.sync_from_sqlite (r :: rs) true false true
      = ({ a with store := (r :: rs).foldl insertIgnore a.store },
         Except.ok ((r :: rs).length, false)) := by
  exact ⟨rfl, rfl⟩

/-- Claim C7: add is idempotent — for both backends, adding the same item
twice and finalizing leaves exactly one entry for the item key in the
physical store, and the idempotent insert of an already-present key is a
no-op, never an error. -/
theorem add_idempotent (a : DownloadArchive) (p : DownloadArchivePostgresql)
    (d e : Kwdict) (ha : a.store.Nodup) (hp : p.store.Nodup) :
    ((a.add d).add d).finalize.store.count (orElseKey (d.get a.cacheKey) (a.keygen d)) = 1 ∧
    ((p.add false e).add false e).finalize.store.count
        (orElseKey (e.get p.cacheKey) (p.keygen e)) = 1 ∧
    (∀ l k, k ∈ l → insertIgnore l k = l) := by
  refine ⟨?_, ?_, fun l k hk => insertIgnore_of_mem hk⟩
  · have h2 : ((a.add d).add d).finalize.store
        = insertIgnore (insertIgnore a.store (orElseKey (d.get a.cacheKey) (a.keygen d)))
            (orElseKey (d.get a.cacheKey) (a.keygen d)) := rfl
    rw [h2, insertIgnore_of_mem (mem_insertIgnore_self _ _)]
    exact count_insertIgnore_self _ ha
  · have h2 : ((p.add false e).add false e).finalize.store
        = insertIgnore (insertIgnore p.store (orElseKey (e.get p.cacheKey) (p.keygen e)))
            (orElseKey (e.get p.cacheKey) (p.keygen e)) := rfl
    rw [h2, insertIgnore_of_mem (mem_insertIgnore_self _ _)]
    exact count_insertIgnore_self _ hp

/-- Witness for add_idempotent: empty stores, an item with no cached key. -/
theorem add_idempotent_witness :
    ((DownloadArchive.add (DownloadArchive.add
          ⟨[], "_archive_key", fun _ => "k"⟩ ⟨[]⟩) ⟨[]⟩).finalize.store.count
        (orElseKey (Kwdict.get ⟨[]⟩ "_archive_key") "k") = 1) ∧
    ((DownloadArchivePostgresql.add (DownloadArchivePostgresql.add
          ⟨[], "_archive_key", fun _ => "k2"⟩ false ⟨[]⟩) false ⟨[]⟩).finalize.store.count
        (orElseKey (Kwdict.get ⟨[]⟩ "_archive_key") "k2") = 1) ∧
    (∀ l k, k ∈ l → insertIgnore l k = l) :=
  add_idempotent ⟨[], "_archive_key", fun _ => "k"⟩ ⟨[], "_archive_key", fun _ => "k2"⟩
    ⟨[]⟩ ⟨[]⟩ List.nodup_nil List.nodup_nil

/-- Claim C8 counterexample: an item whose metadata carries the stale cached
key "stale" while the formatter yields "fresh": add buffers "stale" into the
pending set, but the subsequent check recomputes "fresh", misses the pending
set, queries the store physically and reports not-found — before finalize,
in the same run. -/
theorem buffered_check_stale_cache_cex :
    ((DownloadArchiveMemory.add ⟨[], [], "_archive_key", fun _ => "fresh"⟩
        ⟨[("_archive_key", "stale")]⟩).check ⟨[("_archive_key", "stale")]⟩).found
      = false ∧
    (DownloadArchiveMemory.add ⟨[], [], "_archive_key", fun _ => "fresh"⟩
        ⟨[("_archive_key", "stale")]⟩).keys = ["stale"] ∧
    ((DownloadArchiveMemory.add ⟨[], [], "_archive_key", fun _ => "fresh"⟩
        ⟨[("_archive_key", "stale")]⟩).check ⟨[("_archive_key", "stale")]⟩).physicalQuery
      = true := by
  refine ⟨rfl, rfl, rfl⟩

/-- Claim C8 amended: for every item whose metadata carries no key under the
reserved cache field — or whose cached key is empty or equal to the formatter
key, i.e. whenever the key add buffers coincides with the key check
recomputes — a check after an add on either buffered variant returns found
before finalize, immediately from the pending set and without issuing a
physical query. -/
theorem buffered_check_after_add (m : DownloadArchiveMemory)
    (pm : DownloadArchivePostgresqlMemory) (d e : Kwdict) (fail : Bool)
    (hm : orElseKey (d.get m.cacheKey) (m.keygen d) = m.keygen d)
    (hpm : orElseKey (e.get pm.cacheKey) (pm.keygen e) = pm.keygen e) :
    ((m.add d).check d).found = true ∧
    ((m.add d).check d).physicalQuery = false ∧
    ((pm.add e).check fail e).found = true ∧
    ((pm.add e).check fail e).physicalQuery = false := by
  have h1 : m.keygen d ∈ insertIgnore m.keys (orElseKey (d.get m.cacheKey) (m.keygen d)) := by
    rw [hm]
    exact mem_insertIgnore_self _ _
  have h2 : pm.keygen e ∈ insertIgnore pm.keys (orElseKey (e.get pm.cacheKey) (pm.keygen e)) := by
    rw [hpm]
    exact mem_insertIgnore_self _ _
  refine ⟨?_, ?_, ?_, ?_⟩ <;>
    simp [DownloadArchiveMemory.check, DownloadArchiveMemory.add,
          DownloadArchivePostgresqlMemory.check, DownloadArchivePostgresqlMemory.add, h1, h2]

/-- Witness for buffered_check_after_add: items with no cached key. -/
theorem buffered_check_after_add_witness :
    ((DownloadArchiveMemory.add ⟨[], [], "_archive_key", fun _ => "k"⟩ ⟨[]⟩).check
        ⟨[]⟩).found = true ∧
    ((DownloadArchiveMemory.add ⟨[], [], "_archive_key", fun _ => "k"⟩ ⟨[]⟩).check
        ⟨[]⟩).physicalQuery = false ∧
    ((DownloadArchivePostgresqlMemory.add ⟨[], [], "_archive_key", fun _ => "k2"⟩
        ⟨[]⟩).check false ⟨[]⟩).found = true ∧
    ((DownloadArchivePostgresqlMemory.add ⟨[], [], "_archive_key", fun _ => "k2"⟩
        ⟨[]⟩).check false ⟨[]⟩).physicalQuery = false :=
  buffered_check_after_add ⟨[], [], "_archive_key", fun _ => "k"⟩
    ⟨[], [], "_archive_key", fun _ => "k2"⟩ ⟨[]⟩ ⟨[]⟩ false rfl rfl

/-- Claim C9: for every user-supplied table name, sanitize yields the name
with every double quote replaced by an underscore, wrapped in double quotes:
the interior of the quoted identifier contains no unescaped quote character,
so the interpolated identifier cannot close its own quoting and inject a
further statement. -/
theorem sanitize_escapes_quotes (name : List Char) :
    ∃ body, sanitize name = '"' :: body ++ ['"'] ∧ ∀ c ∈ body, c ≠ '"' := by
  refine ⟨name.map (fun c => if c = '"' then '_' else c), rfl, ?_⟩
  intro c hc
  rw [List.mem_map] at hc
  obtain ⟨a, -, rfl⟩ := hc
  by_cases h : a = '"'
  · subst h
    decide
  · rw [if_neg h]
    exact h

/-- Claim C10: the create-directory-and-retry recovery of the embedded
backend only works for paths with a non-empty directory component. The
fallback path archive-fallback.sqlite3 is a bare filename whose dirname is
empty, so when the first open fails, makedirs raises on the empty string and
construction fails with that error — the retry open is never attempted,
whatever the retry and makedirs oracles would do. A path with a directory
component recovers. -/
theorem fallback_path_retry_unreachable :
    dirname ("archive-fallback.sqlite3".toList) = [] ∧
    (∀ retryOpenOk mkOk : Bool,
        sqliteOpenWithRetry false retryOpenOk mkOk ("archive-fallback.sqlite3".toList)
          = Except.error "FileNotFoundError") ∧
    sqliteOpenWithRetry false true true ("subdir/archive.sqlite3".toList)
      = Except.ok () := by
  refine ⟨rfl, fun retryOpenOk mkOk => rfl, rfl⟩
